import Mathlib

/- Verification of the decode/reconstruct/resolve core of
   `forza_car_folder_importer.py`, via a shallow embedding in Lean.

   Modelling conventions, used throughout:
   * a byte is a `Nat` (< 256 at every call site that matters);
   * Python's `io.BytesIO` is an immutable byte list plus a cursor
     (`BinaryStream` below), and `read(k)` returns up to `k` bytes;
   * a Python value that may be `None` is an `Option`;
   * a raised Python exception is `Except.error` with a `PyErr` tag;
   * float bit patterns are kept as the little-endian `Nat` they were
     unpacked from: no claim treated here does float arithmetic on
     reader output, and matrix arithmetic (Skeleton) is modelled over
     `ℚ`, exact on every instance the claims test. -/

set_option maxHeartbeats 1000000

namespace Forza

/-- The Python exceptions the reader-level code can raise:
`struct.error` (unpack of a buffer of the wrong length), `TypeError`
(arithmetic or comparison on `None`), `UnicodeDecodeError` (invalid
UTF-8), `IndexError` (list index out of range). -/
inductive PyErr where
  | structError
  | typeError
  | unicodeError
  | indexError
  deriving DecidableEq

/-- `BinaryStream`: wraps `io.BytesIO(buffer)` — the immutable byte
buffer plus the read cursor. -/
structure BinaryStream where
  data : List Nat
  pos : Nat
  deriving DecidableEq

namespace BinaryStream

/-- `self._stream.read(k)`: up to `k` bytes from the cursor (fewer at the
end of the buffer, none past it); the cursor advances by the number of
bytes actually returned. -/
def readBytes (s : BinaryStream) (k : Nat) : List Nat × BinaryStream :=
  let b := (s.data.drop s.pos).take k
  (b, ⟨s.data, s.pos + b.length⟩)

/-- `self._stream.read()` / `read(None)`: all bytes from the cursor on. -/
def readAll (s : BinaryStream) : List Nat × BinaryStream :=
  let b := s.data.drop s.pos
  (b, ⟨s.data, s.pos + b.length⟩)

/-- `stream.seek(k, os.SEEK_CUR)` with `k ≥ 0` (seeking past the end is
legal for `io.BytesIO`). -/
def seekCur (s : BinaryStream) (k : Nat) : BinaryStream :=
  ⟨s.data, s.pos + k⟩

/-- Little-endian accumulation of a byte list into an unsigned integer,
as `struct.unpack` does for the integer format codes. -/
def leNat : List Nat → Nat
  | [] => 0
  | b :: rest => b + 256 * leNat rest

/-- Two's-complement reinterpretation of a `w`-bit unsigned value, as
`struct.unpack` does for the signed format codes. -/
def toSigned (v w : Nat) : Int :=
  if v < 2 ^ (w - 1) then (v : Int) else (v : Int) - 2 ^ w

/-- The shared shape of every fixed-width read in `BinaryStream`:
`v = self._stream.read(w); struct.unpack(fmt, v)[0] if v else None`.
An empty read yields `None`; a non-empty read of fewer than `w` bytes
makes `struct.unpack` raise `struct.error`. -/
def readExact (s : BinaryStream) (w : Nat) :
    Except PyErr (Option (List Nat) × BinaryStream) :=
  let (b, s') := s.readBytes w
  if b.length = 0 then .ok (none, s')
  else if b.length = w then .ok (some b, s')
  else .error .structError

/-- `read_u8` -/
def read_u8 (s : BinaryStream) : Except PyErr (Option Nat × BinaryStream) :=
  match readExact s 1 with
  | .error e => .error e
  | .ok (none, s') => .ok (none, s')
  | .ok (some b, s') => .ok (some (leNat b), s')

/-- `read_u16` -/
def read_u16 (s : BinaryStream) : Except PyErr (Option Nat × BinaryStream) :=
  match readExact s 2 with
  | .error e => .error e
  | .ok (none, s') => .ok (none, s')
  | .ok (some b, s') => .ok (some (leNat b), s')

/-- `read_s16` -/
def read_s16 (s : BinaryStream) : Except PyErr (Option Int × BinaryStream) :=
  match readExact s 2 with
  | .error e => .error e
  | .ok (none, s') => .ok (none, s')
  | .ok (some b, s') => .ok (some (toSigned (leNat b) 16), s')

/-- `read_u32` -/
def read_u32 (s : BinaryStream) : Except PyErr (Option Nat × BinaryStream) :=
  match readExact s 4 with
  | .error e => .error e
  | .ok (none, s') => .ok (none, s')
  | .ok (some b, s') => .ok (some (leNat b), s')

/-- `read_s32` -/
def read_s32 (s : BinaryStream) : Except PyErr (Option Int × BinaryStream) :=
  match readExact s 4 with
  | .error e => .error e
  | .ok (none, s') => .ok (none, s')
  | .ok (some b, s') => .ok (some (toSigned (leNat b) 32), s')

/-- `read_f16`: a half-precision float, kept as its 16-bit pattern. -/
def read_f16 (s : BinaryStream) : Except PyErr (Option Nat × BinaryStream) :=
  match readExact s 2 with
  | .error e => .error e
  | .ok (none, s') => .ok (none, s')
  | .ok (some b, s') => .ok (some (leNat b), s')

/-- `read_f32`: a single-precision float, kept as its 32-bit pattern. -/
def read_f32 (s : BinaryStream) : Except PyErr (Option Nat × BinaryStream) :=
  match readExact s 4 with
  | .error e => .error e
  | .ok (none, s') => .ok (none, s')
  | .ok (some b, s') => .ok (some (leNat b), s')

/-- `read_sn16 = self.read_s16() / 32767`: Python true division of an
int by an int (exact here, modelled in `ℚ`); when `read_s16` returned
`None`, `None / 32767` raises `TypeError`. -/
def read_sn16 (s : BinaryStream) : Except PyErr (ℚ × BinaryStream) :=
  match read_s16 s with
  | .error e => .error e
  | .ok (none, _) => .error .typeError
  | .ok (some v, s') => .ok ((v : ℚ) / 32767, s')

/-- `read_un8 = self.read_u8() / 255`; `None / 255` raises `TypeError`. -/
def read_un8 (s : BinaryStream) : Except PyErr (ℚ × BinaryStream) :=
  match read_u8 s with
  | .error e => .error e
  | .ok (none, _) => .error .typeError
  | .ok (some v, s') => .ok ((v : ℚ) / 255, s')

/-- `read_un16 = self.read_u16() / 65535`; `None / 65535` raises
`TypeError`. -/
def read_un16 (s : BinaryStream) : Except PyErr (ℚ × BinaryStream) :=
  match read_u16 s with
  | .error e => .error e
  | .ok (none, _) => .error .typeError
  | .ok (some v, s') => .ok ((v : ℚ) / 65535, s')

/-- The `while True` loop of `read_7bit`.  Each iteration reads one byte
(`None & 0x7F` raises `TypeError` at the end of the buffer), ORs its low
7 bits into `value` at `shift`, and stops when the high bit is clear.
The fuel only bounds the recursion: a successful iteration consumes one
byte of the buffer, so with fuel `remaining + 1` the fuel-exhaustion
branch is unreachable (the end-of-buffer `TypeError` fires first). -/
def read_7bit_loop : Nat → BinaryStream → Nat → Nat →
    Except PyErr (Nat × BinaryStream)
  | 0, _, _, _ => .error .typeError
  | fuel + 1, s, value, shift =>
    match read_u8 s with
    | .error e => .error e
    | .ok (none, _) => .error .typeError
    | .ok (some b, s') =>
      let value := value ||| ((b &&& 0x7F) <<< shift)
      if b &&& 0x80 == 0 then .ok (value, s')
      else read_7bit_loop fuel s' value (shift + 7)

/-- `read_7bit`: little-endian base-128 varint. -/
def read_7bit (s : BinaryStream) : Except PyErr (Nat × BinaryStream) :=
  read_7bit_loop (s.data.length - s.pos + 1) s 0 0

/-- Is a byte a UTF-8 continuation byte (`0x80..0xBF`)? -/
def utf8Cont (b : Nat) : Bool := 0x80 ≤ b && b ≤ 0xBF

/-- Strict UTF-8 validity as CPython's `bytes.decode("utf-8")` checks
it: no truncated sequences, no overlong forms, no surrogates, nothing
above U+10FFFF. -/
def validUtf8 : List Nat → Bool
  | [] => true
  | b :: r =>
    if b ≤ 0x7F then validUtf8 r
    else if 0xC2 ≤ b && b ≤ 0xDF then
      match r with
      | c1 :: r' => utf8Cont c1 && validUtf8 r'
      | [] => false
    else if b = 0xE0 then
      match r with
      | c1 :: c2 :: r' => (0xA0 ≤ c1 && c1 ≤ 0xBF) && utf8Cont c2 && validUtf8 r'
      | _ => false
    else if (0xE1 ≤ b && b ≤ 0xEC) || b = 0xEE || b = 0xEF then
      match r with
      | c1 :: c2 :: r' => utf8Cont c1 && utf8Cont c2 && validUtf8 r'
      | _ => false
    else if b = 0xED then
      match r with
      | c1 :: c2 :: r' => (0x80 ≤ c1 && c1 ≤ 0x9F) && utf8Cont c2 && validUtf8 r'
      | _ => false
    else if b = 0xF0 then
      match r with
      | c1 :: c2 :: c3 :: r' =>
        (0x90 ≤ c1 && c1 ≤ 0xBF) && utf8Cont c2 && utf8Cont c3 && validUtf8 r'
      | _ => false
    else if 0xF1 ≤ b && b ≤ 0xF3 then
      match r with
      | c1 :: c2 :: c3 :: r' =>
        utf8Cont c1 && utf8Cont c2 && utf8Cont c3 && validUtf8 r'
      | _ => false
    else if b = 0xF4 then
      match r with
      | c1 :: c2 :: c3 :: r' =>
        (0x80 ≤ c1 && c1 ≤ 0x8F) && utf8Cont c2 && utf8Cont c3 && validUtf8 r'
      | _ => false
    else false

/-- `read_string`: a u32 length prefix, then that many bytes decoded as
UTF-8.  The decoded Python `str` is represented by its UTF-8 byte list.
A `None` length (cursor at or past the end) makes `self._stream.read(None)`
read all remaining bytes. -/
def read_string (s : BinaryStream) : Except PyErr (List Nat × BinaryStream) :=
  match read_u32 s with
  | .error e => .error e
  | .ok (none, s') =>
    let (b, s'') := s'.readAll
    if validUtf8 b then .ok (b, s'') else .error .unicodeError
  | .ok (some n, s') =>
    let (b, s'') := s'.readBytes n
    if validUtf8 b then .ok (b, s'') else .error .unicodeError

/-- `read_7bit_string`: a 7-bit-varint length prefix, then that many
bytes decoded as UTF-8. -/
def read_7bit_string (s : BinaryStream) : Except PyErr (List Nat × BinaryStream) :=
  match read_7bit s with
  | .error e => .error e
  | .ok (n, s') =>
    let (b, s'') := s'.readBytes n
    if validUtf8 b then .ok (b, s'') else .error .unicodeError

end BinaryStream

/-- `Version`: (major, minor), each read as a u8. -/
structure Version where
  major : Nat
  minor : Nat
  deriving DecidableEq

/-- `Version.is_at_least(major, minor)` exactly as in the source:
`self.major > major or (self.major == major and self.minor >= minor)`. -/
def Version.isAtLeast (v : Version) (major minor : Nat) : Bool :=
  decide (v.major > major) || (decide (v.major = major) && decide (v.minor ≥ minor))

namespace Texture

/-- `format_encoded = encoding if transcoding <= 1 else transcoding - 2`
from `Texture.load`. -/
def formatEncoded (transcoding encoding : Nat) : Nat :=
  if transcoding ≤ 1 then encoding else transcoding - 2

/-- The `format_map` dict literal from `Texture.load`; a Python
`x if color_profile else y` tests `color_profile != 0`. -/
def formatMap (color_profile : Nat) (fe : Nat) : Nat :=
  if fe = 0 then (if color_profile ≠ 0 then 72 else 71)
  else if fe = 1 then (if color_profile ≠ 0 then 75 else 74)
  else if fe = 2 then (if color_profile ≠ 0 then 78 else 77)
  else if fe = 3 then 80
  else if fe = 4 then 81
  else if fe = 5 then 83
  else if fe = 6 then 84
  else if fe = 7 then 95
  else if fe = 8 then 96
  else if fe = 9 then (if color_profile ≠ 0 then 99 else 98)
  else if fe = 13 then (if color_profile ≠ 0 then 29 else 28)
  else 0

/-- `dxgi_format = format_map.get(format_encoded, 0)` -/
def dxgiFormat (transcoding encoding color_profile : Nat) : Nat :=
  formatMap color_profile (formatEncoded transcoding encoding)

end Texture

open BinaryStream in
/-- C1: counterexample.  The claim says every typed read at or past the
end of the buffer (or with fewer bytes remaining than its width) returns
an absent/default value and never raises.  But on an empty buffer
`read_sn16` computes `None / 32767` (`TypeError`) and `read_7bit`
computes `None & 0x7F` (`TypeError`), and with one byte remaining
`read_u16` feeds a 1-byte buffer to `struct.unpack('H', …)`
(`struct.error`). -/
theorem C1_counterexample :
    read_sn16 ⟨[], 0⟩ = .error PyErr.typeError ∧
    read_7bit ⟨[], 0⟩ = .error PyErr.typeError ∧
    read_u16 ⟨[7], 0⟩ = .error PyErr.structError :=
  ⟨rfl, rfl, rfl⟩

open BinaryStream in
/-- C1 (amended): with the cursor at or past the end of the backing
buffer, the fixed-width reads (u8/s16/u16/s32/u32/f16/f32) return `None`
without raising and leave the cursor in place, and the length-prefixed
string read returns the empty string; but the normalized fixed-point
reads (`read_sn16`, `read_un8`, `read_un16`) and the 7-bit varint read
raise `TypeError` (the `None` flows into arithmetic), and a fixed-width
read that starts with fewer bytes remaining than its width — but more
than zero — raises `struct.error`. -/
theorem C1_short_reads (s : BinaryStream) (h : s.data.length ≤ s.pos) :
    read_u8 s = .ok (none, s) ∧
    read_u16 s = .ok (none, s) ∧
    read_s16 s = .ok (none, s) ∧
    read_u32 s = .ok (none, s) ∧
    read_s32 s = .ok (none, s) ∧
    read_f16 s = .ok (none, s) ∧
    read_f32 s = .ok (none, s) ∧
    read_string s = .ok ([], s) ∧
    read_sn16 s = .error PyErr.typeError ∧
    read_un8 s = .error PyErr.typeError ∧
    read_un16 s = .error PyErr.typeError ∧
    read_7bit s = .error PyErr.typeError ∧
    (∀ t : BinaryStream, t.data.length - t.pos = 1 →
      read_u16 t = .error PyErr.structError ∧
      read_s16 t = .error PyErr.structError ∧
      read_f16 t = .error PyErr.structError) ∧
    (∀ t : BinaryStream, 1 ≤ t.data.length - t.pos → t.data.length - t.pos ≤ 3 →
      read_u32 t = .error PyErr.structError ∧
      read_s32 t = .error PyErr.structError ∧
      read_f32 t = .error PyErr.structError) := by
  have hdrop : s.data.drop s.pos = [] := List.drop_eq_nil_of_le h
  have hex : ∀ w, readExact s w = .ok (none, s) := by
    intro w
    simp [readExact, readBytes, hdrop]
  have h7 : read_7bit s = .error PyErr.typeError := by
    have : s.data.length - s.pos = 0 := Nat.sub_eq_zero_of_le h
    simp [read_7bit, this, read_7bit_loop, read_u8, hex 1]
  have hpartial2 : ∀ t : BinaryStream, t.data.length - t.pos = 1 →
      readExact t 2 = .error PyErr.structError := by
    intro t ht
    have hlen : (t.data.drop t.pos).length = 1 := by
      simp [List.length_drop, ht]
    obtain ⟨a, ha⟩ := List.length_eq_one.mp hlen
    simp [readExact, readBytes, ha]
  have hpartial4 : ∀ t : BinaryStream, 1 ≤ t.data.length - t.pos →
      t.data.length - t.pos ≤ 3 → readExact t 4 = .error PyErr.structError := by
    intro t h1 h3
    have hlen : (t.data.drop t.pos).length = t.data.length - t.pos := by
      simp [List.length_drop]
    have htake : (t.data.drop t.pos).take 4 = t.data.drop t.pos :=
      List.take_of_length_le (by omega)
    simp only [readExact, readBytes, htake]
    rw [if_neg (by omega), if_neg (by omega)]
  refine ⟨?_, ?_, ?_, ?_, ?_, ?_, ?_, ?_, ?_, ?_, ?_, h7, ?_, ?_⟩
  · simp [read_u8, hex 1]
  · simp [read_u16, hex 2]
  · simp [read_s16, hex 2]
  · simp [read_u32, hex 4]
  · simp [read_s32, hex 4]
  · simp [read_f16, hex 2]
  · simp [read_f32, hex 4]
  · have h32 : read_u32 s = .ok (none, s) := by simp [read_u32, hex 4]
    have hall : s.readAll = ([], s) := by simp [readAll, hdrop]
    simp only [read_string, h32, hall]
    rfl
  · simp [read_sn16, read_s16, hex 2]
  · simp [read_un8, read_u8, hex 1]
  · simp [read_un16, read_u16, hex 2]
  · intro t ht
    refine ⟨?_, ?_, ?_⟩ <;> simp [read_u16, read_s16, read_f16, hpartial2 t ht]
  · intro t h1 h3
    refine ⟨?_, ?_, ?_⟩ <;> simp [read_u32, read_s32, read_f32, hpartial4 t h1 h3]

open BinaryStream in
/-- C1: witness for `C1_short_reads` at the empty buffer. -/
theorem C1_short_reads_witness :
    (([] : List Nat).length ≤ 0) ∧
    read_u8 ⟨[], 0⟩ = .ok (none, ⟨[], 0⟩) :=
  ⟨by decide, (C1_short_reads ⟨[], 0⟩ (by decide)).1⟩

/-- C2: counterexample.  For transcoding=3, encoding=5, color_profile=1
the code computes `format_encoded = 3 - 2 = 1` (not 3, since
transcoding > 1 discards the encoding) and output code 75 (not 80), and
this entry does branch on the color-profile flag (profile 0 gives 74). -/
theorem C2_counterexample :
    Texture.formatEncoded 3 5 = 1 ∧
    Texture.formatEncoded 3 5 ≠ 3 ∧
    Texture.dxgiFormat 3 5 1 = 75 ∧
    Texture.dxgiFormat 3 5 1 ≠ 80 ∧
    Texture.dxgiFormat 3 5 0 = 74 := by
  decide

/-- C2 (amended): the selector is
`format_encoded = encoding if transcoding ≤ 1 else transcoding - 2`,
mapped through the fixed table with unmapped codes yielding 0;
transcoding=0, encoding=2, color_profile=0 gives output code 77;
transcoding=3, encoding=5, color_profile=1 gives `format_encoded = 1`
and output code 75 (profile-dependent); `format_encoded = 3` — reached
e.g. at transcoding 5 — maps to 80 for every encoding and profile; codes
10, 11 and 12 are unmapped and yield 0. -/
theorem C2_format_selection :
    Texture.dxgiFormat 0 2 0 = 77 ∧
    Texture.dxgiFormat 3 5 1 = 75 ∧
    (∀ encoding color_profile, Texture.dxgiFormat 5 encoding color_profile = 80) ∧
    (∀ color_profile, Texture.formatMap color_profile 3 = 80) ∧
    (∀ c, Texture.formatMap c 10 = 0 ∧ Texture.formatMap c 11 = 0 ∧
      Texture.formatMap c 12 = 0) := by
  refine ⟨by decide, by decide, ?_, ?_, ?_⟩
  · intro encoding color_profile
    simp [Texture.dxgiFormat, Texture.formatEncoded, Texture.formatMap]
  · intro color_profile
    simp [Texture.formatMap]
  · intro c
    refine ⟨?_, ?_, ?_⟩ <;> simp [Texture.formatMap]

/-- C8: `Version.is_at_least(M, m)` is true exactly when
`major > M or (major == M and minor >= m)`, i.e. it agrees with the
(non-strict) lexicographic comparison of `(M, m)` against
`(major, minor)`; in particular (1,9) ≥ (1,9), ¬((1,9) ≥ (2,0)) and
(2,0) ≥ (1,99). -/
theorem C8_is_at_least_lex :
    (∀ Ma Mi M m : Nat,
      (Version.mk Ma Mi).isAtLeast M m = true ↔
        Prod.Lex (· < ·) (· ≤ ·) (M, m) (Ma, Mi)) ∧
    (Version.mk 1 9).isAtLeast 1 9 = true ∧
    (Version.mk 1 9).isAtLeast 2 0 = false ∧
    (Version.mk 2 0).isAtLeast 1 99 = true := by
  refine ⟨?_, by decide, by decide, by decide⟩
  intro Ma Mi M m
  simp only [Version.isAtLeast, Prod.lex_def, Bool.or_eq_true, Bool.and_eq_true,
    decide_eq_true_eq]
  omega

/-- `Metadata`: the tag read from the record (a `None` tag would be
possible only together with a failing later read, see
`Metadata.deserialize`) plus the byte-range view the record points at. -/
structure Metadata where
  tag : Option Nat
  view : List Nat
  deriving DecidableEq

/-- `Metadata.deserialize(stream)` where `stream` is the fresh
`BinaryStream` that `Blob.deserialize` builds over the parent buffer's
slice beginning at this record (`stream[metadata_offset + i * 8 :]`),
so `buf` below starts at the record itself.  Reads `tag` (u32), the
packed u16 whose high 12 bits are the size (`version_and_size >> 4`),
and the u16 offset; the view is `stream[offset : offset + size]`, a
slice of `buf` — relative to the record's own start.  A `None` from the
packed-field read raises `TypeError` at `>> 4`; a `None` offset raises
`TypeError` inside the slice bound `offset + size`. -/
def Metadata.deserialize (buf : List Nat) : Except PyErr Metadata :=
  match BinaryStream.read_u32 ⟨buf, 0⟩ with
  | .error e => .error e
  | .ok (tag?, s1) =>
    match BinaryStream.read_u16 s1 with
    | .error e => .error e
    | .ok (none, _) => .error .typeError
    | .ok (some vs, s2) =>
      match BinaryStream.read_u16 s2 with
      | .error e => .error e
      | .ok (none, _) => .error .typeError
      | .ok (some offset, _) => .ok ⟨tag?, (buf.drop offset).take (vs >>> 4)⟩

/-- The metadata loop of `Blob.deserialize`:
`for i in range(metadata_length): Metadata().deserialize(BinaryStream(stream[metadata_offset + i * 8:]))`,
collected in file order; `buf` is the parent (bundle) buffer, sliced
absolutely by `BinaryStream.__getitem__`.  `j` is the index of the next
record. -/
def metadataRecordsAux (buf : List Nat) (metadataOffset : Nat) :
    Nat → Nat → Except PyErr (List Metadata)
  | _, 0 => .ok []
  | j, n + 1 =>
    match Metadata.deserialize (buf.drop (metadataOffset + j * 8)) with
    | .error e => .error e
    | .ok md =>
      match metadataRecordsAux buf metadataOffset (j + 1) n with
      | .error e => .error e
      | .ok rest => .ok (md :: rest)

/-- All `metadata_length` records of one Blob, in file order. -/
def metadataRecords (buf : List Nat) (metadataOffset n : Nat) :
    Except PyErr (List Metadata) :=
  metadataRecordsAux buf metadataOffset 0 n

lemma metadataRecordsAux_spec (n : Nat) :
    ∀ buf off j l, metadataRecordsAux buf off j n = .ok l →
      l.length = n ∧ ∀ i, i < n → ∃ md,
        Metadata.deserialize (buf.drop (off + (j + i) * 8)) = .ok md ∧
        l.get? i = some md := by
  induction n with
  | zero =>
    intro buf off j l h
    simp only [metadataRecordsAux] at h
    cases h
    exact ⟨rfl, fun i hi => absurd hi (Nat.not_lt_zero i)⟩
  | succ n ih =>
    intro buf off j l h
    simp only [metadataRecordsAux] at h
    cases h0 : Metadata.deserialize (buf.drop (off + j * 8)) with
    | error e => rw [h0] at h; cases h
    | ok md =>
      rw [h0] at h
      cases hrest : metadataRecordsAux buf off (j + 1) n with
      | error e => rw [hrest] at h; cases h
      | ok rest =>
        rw [hrest] at h
        cases h
        obtain ⟨hlen, hspec⟩ := ih buf off (j + 1) rest hrest
        refine ⟨by simp [hlen], ?_⟩
        intro i hi
        cases i with
        | zero => exact ⟨md, by simpa using h0, rfl⟩
        | succ i =>
          obtain ⟨md', hmd', hget⟩ := hspec i (Nat.lt_of_succ_lt_succ hi)
          exact ⟨md', by rw [show j + (i + 1) = j + 1 + i by omega]; exact hmd',
            by simpa using hget⟩

lemma readExact_of_le (buf : List Nat) (p w : Nat) (hw : 0 < w)
    (h : p + w ≤ buf.length) :
    BinaryStream.readExact ⟨buf, p⟩ w =
      .ok (some ((buf.drop p).take w), ⟨buf, p + w⟩) := by
  have hlen : ((buf.drop p).take w).length = w := by
    simp only [List.length_take, List.length_drop]
    omega
  have h0 : ¬(w = 0) := by omega
  simp [BinaryStream.readExact, BinaryStream.readBytes, hlen, h0]

/-- C3: counterexample.  A bundle buffer whose byte at each position is
the position itself, metadata table at offset 0 with two 8-byte
records.  Record 1 (bytes 8..15) encodes size 1 (packed field 0x0010 at
bytes 12-13) and offset 16 (bytes 14-15); its decoded view is the byte
at absolute position 8 + 16 = 24 (relative to the record's own start),
namely `[24]`, and not the byte at position 0 + 16 = 16 that a view
relative to the start of the metadata table would give. -/
theorem C3_counterexample :
    (metadataRecords
        [0, 1, 2, 3, 4, 5, 6, 7, 8, 9, 10, 11, 16, 0, 16, 0, 16, 17, 18, 19,
          20, 21, 22, 23, 24, 25, 26, 27, 28, 29] 0 2).map
        (List.map Metadata.view) = .ok [[], [24]] ∧
    (([0, 1, 2, 3, 4, 5, 6, 7, 8, 9, 10, 11, 16, 0, 16, 0, 16, 17, 18, 19,
        20, 21, 22, 23, 24, 25, 26, 27, 28, 29] : List Nat).drop (0 + 16)).take 1 =
      [16] ∧
    (24 : Nat) ≠ 16 :=
  ⟨rfl, rfl, by decide⟩

/-- C3 (amended): each 8-byte-strided Metadata record decodes as tag
(u32), a packed 16-bit field whose high 12 bits are the size, then a
16-bit offset; but the record's byte-range view covers
[offset, offset + size) measured relative to the start of that record
itself (absolute position `metadata_offset + 8·i`), not relative to the
start of the Blob's metadata table — the two agree only for record
index i = 0.  Conjunct 1: what one record decodes to from its own
slice; conjunct 2: record `i` of the loop is decoded from the parent
buffer's suffix starting at `metadata_offset + i * 8`. -/
theorem C3_metadata_views :
    (∀ buf : List Nat, 8 ≤ buf.length →
      Metadata.deserialize buf = .ok
        ⟨some (BinaryStream.leNat (buf.take 4)),
          (buf.drop (BinaryStream.leNat ((buf.drop 6).take 2))).take
            (BinaryStream.leNat ((buf.drop 4).take 2) >>> 4)⟩) ∧
    (∀ buf off n l, metadataRecords buf off n = .ok l →
      l.length = n ∧ ∀ i, i < n → ∃ md,
        Metadata.deserialize (buf.drop (off + i * 8)) = .ok md ∧
        l.get? i = some md) := by
  constructor
  · intro buf hlen
    have h32 := readExact_of_le buf 0 4 (by omega) (by omega)
    have h16a := readExact_of_le buf 4 2 (by omega) (by omega)
    have h16b := readExact_of_le buf 6 2 (by omega) (by omega)
    simp only [Metadata.deserialize, BinaryStream.read_u32, BinaryStream.read_u16,
      h32, h16a, h16b, List.drop_zero]
  · intro buf off n l h
    obtain ⟨hlen, hspec⟩ := metadataRecordsAux_spec n buf off 0 l h
    refine ⟨hlen, ?_⟩
    intro i hi
    simpa using hspec i hi

/-- C3: witness for `C3_metadata_views` — the concrete two-record
buffer of the counterexample, decoded through the loop. -/
theorem C3_metadata_views_witness :
    (8 : Nat) ≤ 12 ∧
    Metadata.deserialize [0, 0, 0, 0, 16, 0, 8, 0, 40, 41, 42, 43] =
      .ok ⟨some 0, [40]⟩ := by
  refine ⟨by decide, ?_⟩
  have h := (C3_metadata_views.1) [0, 0, 0, 0, 16, 0, 8, 0, 40, 41, 42, 43]
    (by decide)
  simpa using h

/-- The running minimum of the index-reading loop in
`create_blender_objects`: `vertex_id_min` starts at 0xFFFFFFFF and is
lowered by every index read. -/
def vertexIdMin (draw : List Nat) : Nat :=
  draw.foldl Nat.min 0xFFFFFFFF

/-- The face-building loop of `create_blender_objects`:
`for i in range(mesh.index_count // 3): j = i * 3;
faces.append((d[j] - min, d[j + 2] - min, d[j + 1] - min))`.
(Subtraction cannot go below zero because `vertex_id_min` is a lower
bound of every index, so `Nat` subtraction agrees with Python's.) -/
def createFaces (draw : List Nat) : List (Nat × Nat × Nat) :=
  let m := vertexIdMin draw
  (List.range (draw.length / 3)).map fun i =>
    (draw.getD (i * 3) 0 - m, draw.getD (i * 3 + 2) 0 - m,
      draw.getD (i * 3 + 1) 0 - m)

/-- Triangle assembly as the spec describes it: consume indices three
at a time, swap the second and third of each group, rebase by `m`. -/
def facesChunks (m : Nat) : List Nat → List (Nat × Nat × Nat)
  | a :: b :: c :: rest => (a - m, c - m, b - m) :: facesChunks m rest
  | _ => []

lemma getD_cons3 (a b c : Nat) (rest : List Nat) (k : Nat) :
    (a :: b :: c :: rest).getD (k + 3) 0 = rest.getD k 0 := by
  simp [List.getD]

lemma range_map_eq_facesChunks (m : Nat) :
    ∀ n draw, draw.length = 3 * n →
      (List.range n).map (fun i =>
        (draw.getD (i * 3) 0 - m, draw.getD (i * 3 + 2) 0 - m,
          draw.getD (i * 3 + 1) 0 - m)) = facesChunks m draw := by
  intro n
  induction n with
  | zero =>
    intro draw h
    have : draw = [] := List.eq_nil_of_length_eq_zero (by omega)
    subst this
    rfl
  | succ n ih =>
    intro draw h
    match draw with
    | [] => simp at h
    | [_] => simp at h; omega
    | [_, _] => simp at h; omega
    | a :: b :: c :: rest =>
      have hrest : rest.length = 3 * n := by simp at h; omega
      have hstep : facesChunks m (a :: b :: c :: rest) =
          (a - m, c - m, b - m) :: facesChunks m rest := rfl
      rw [List.range_succ_eq_map, List.map_cons, List.map_map, hstep,
        ← ih rest hrest]
      refine congrArg₂ List.cons rfl ?_
      refine List.map_congr_left ?_
      intro i _
      show ((a :: b :: c :: rest).getD (Nat.succ i * 3) 0 - m,
        (a :: b :: c :: rest).getD (Nat.succ i * 3 + 2) 0 - m,
        (a :: b :: c :: rest).getD (Nat.succ i * 3 + 1) 0 - m) =
        (rest.getD (i * 3) 0 - m, rest.getD (i * 3 + 2) 0 - m,
          rest.getD (i * 3 + 1) 0 - m)
      rw [show Nat.succ i * 3 = i * 3 + 3 by omega]
      rw [show i * 3 + 3 + 2 = i * 3 + 2 + 3 by omega]
      rw [show i * 3 + 3 + 1 = i * 3 + 1 + 3 by omega]
      rw [getD_cons3, getD_cons3, getD_cons3]

lemma foldl_min_init (t : List Nat) : ∀ a : Nat, t.foldl Nat.min a ≤ a := by
  induction t with
  | nil => intro a; exact Nat.le_refl a
  | cons b t ih =>
    intro a
    calc (b :: t).foldl Nat.min a = t.foldl Nat.min (Nat.min a b) := rfl
      _ ≤ Nat.min a b := ih (Nat.min a b)
      _ ≤ a := Nat.min_le_left a b

lemma foldl_min_le (l : List Nat) :
    ∀ (a : Nat) x, x ∈ l → l.foldl Nat.min a ≤ x := by
  induction l with
  | nil => intro a x hx; cases hx
  | cons b t ih =>
    intro a x hx
    cases hx with
    | head =>
      calc (b :: t).foldl Nat.min a = t.foldl Nat.min (Nat.min a b) := rfl
        _ ≤ Nat.min a b := foldl_min_init t (Nat.min a b)
        _ ≤ b := Nat.min_le_right a b
    | tail _ hx => exact ih (Nat.min a b) x hx

lemma foldl_min_mem (l : List Nat) :
    ∀ a : Nat, l.foldl Nat.min a = a ∨ l.foldl Nat.min a ∈ l := by
  induction l with
  | nil => intro a; exact Or.inl rfl
  | cons b t ih =>
    intro a
    have h1 : (b :: t).foldl Nat.min a = t.foldl Nat.min (Nat.min a b) := rfl
    rcases ih (Nat.min a b) with h | h
    · rw [h1, h]
      by_cases hab : a ≤ b
      · left
        rw [Nat.min_eq_min, Nat.min_eq_left hab]
      · right
        have hb : Nat.min a b = b := by
          rw [Nat.min_eq_min, Nat.min_eq_right (by omega)]
        rw [hb]
        exact List.mem_cons_self b t
    · rw [h1]
      exact Or.inr (List.mem_cons_of_mem b h)

/-- C7: for an index sequence whose length is a multiple of 3, the mesh
assembly emits one triangle per consecutive group of 3 with the second
and third index swapped, each index rebased by the minimum computed
over the whole sequence (the fold seeded with 0xFFFFFFFF, which is a
true minimum — a lower bound and attained — whenever the list is a
nonempty list of u16/u32 index values); `[0,1,2,3,4,5]` assembles to
`[(0,2,1),(3,5,4)]`. -/
theorem C7_triangle_assembly :
    (∀ draw : List Nat, draw.length % 3 = 0 →
      createFaces draw = facesChunks (vertexIdMin draw) draw) ∧
    (∀ draw : List Nat, (∀ x ∈ draw, x ≤ 0xFFFFFFFF) →
      (∀ x ∈ draw, vertexIdMin draw ≤ x) ∧ (draw ≠ [] → vertexIdMin draw ∈ draw)) ∧
    createFaces [0, 1, 2, 3, 4, 5] = [(0, 2, 1), (3, 5, 4)] := by
  refine ⟨?_, ?_, by decide⟩
  · intro draw h3
    exact range_map_eq_facesChunks (vertexIdMin draw) (draw.length / 3) draw
      (by omega)
  · intro draw hbound
    refine ⟨fun x hx => foldl_min_le draw _ x hx, ?_⟩
    intro hne
    rcases foldl_min_mem draw 0xFFFFFFFF with h | h
    · cases draw with
      | nil => exact absurd rfl hne
      | cons a t =>
        have hle : (a :: t).foldl Nat.min 0xFFFFFFFF ≤ a :=
          foldl_min_le (a :: t) _ a (List.mem_cons_self a t)
        have hax : a ≤ 0xFFFFFFFF := hbound a (List.mem_cons_self a t)
        have ha : a = 0xFFFFFFFF := by omega
        show (a :: t).foldl Nat.min 0xFFFFFFFF ∈ a :: t
        rw [h, ← ha]
        exact List.mem_cons_self a t
    · exact h

/-- C7: witness for `C7_triangle_assembly` at `[0,1,2,3,4,5]`. -/
theorem C7_triangle_assembly_witness :
    ([0, 1, 2, 3, 4, 5] : List Nat).length % 3 = 0 ∧
    createFaces [0, 1, 2, 3, 4, 5] =
      facesChunks (vertexIdMin [0, 1, 2, 3, 4, 5]) [0, 1, 2, 3, 4, 5] :=
  ⟨by decide, C7_triangle_assembly.1 [0, 1, 2, 3, 4, 5] (by decide)⟩

/-- A 4×4 matrix, row-major as `Skeleton.deserialize` stores transforms
(`transform[row][column]`, translation in row 3).  Entries live in `ℚ`:
Python's float arithmetic is abstracted as exact, which is faithful on
every instance the claims test (products of 0, 1 and small integers). -/
def Mat4 := Fin 4 → Fin 4 → ℚ

instance : DecidableEq Mat4 :=
  inferInstanceAs (DecidableEq (Fin 4 → Fin 4 → ℚ))

/-- The triple loop of the composition step in `Skeleton.deserialize`:
`transform[i][j] += bone['transform'][i][k] * tr[k][j]` summed over
`k = 0..3` — the bone's local transform right-multiplied by the
parent's transform. -/
def mat4Mul (a b : Mat4) : Mat4 := fun i j =>
  a i 0 * b 0 j + a i 1 * b 1 j + a i 2 * b 2 j + a i 3 * b 3 j

/-- The identity initialization `[[1 if i == j else 0 for i in range(4)]
for j in range(4)]` from `Skeleton.deserialize` (also the local
transform of the claim's child bone). -/
def mat4Id : Mat4 := fun i j => if i = j then 1 else 0

/-- A pure translation by (5,0,0): identity rotation block, translation
row 3 = (5,0,0,1) — the claim's root-bone transform. -/
def mat4Trans5 : Mat4 := fun i j =>
  if i = j then 1 else if i.val = 3 ∧ j.val = 0 then 5 else 0

/-- One bone record as the stream encodes it (a u32-length-prefixed
name, a signed-16 `parent_index`, 4 skipped bytes, sixteen row-major
f32s), taken after decoding — the claims quantify over decoded
records. -/
structure BoneRec where
  name : List Nat
  parent : Int
  transform : Mat4
  deriving DecidableEq

/-- One loaded bone (the `{'name': …, 'transform': …}` dict). -/
structure Bone where
  name : List Nat
  transform : Mat4
  deriving DecidableEq

/-- Python list indexing `l[i]`: non-negative indices from the front,
negative indices from the back, `IndexError` when out of range. -/
def pyIndex {α : Type} (l : List α) (i : Int) : Except PyErr α :=
  let j : Int := if 0 ≤ i then i else (l.length : Int) + i
  if 0 ≤ j then
    match l.get? j.toNat with
    | some x => .ok x
    | none => .error .indexError
  else .error .indexError

/-- The per-bone body of the `Skeleton.deserialize` loop: if
`parent_index != -1 and parent_index < len(self.bones)`, the bone's
transform becomes `local × parent` where the parent is fetched from the
already-composed list by Python indexing; otherwise the bone keeps its
local transform. -/
def composeBone (bones : List Bone) (r : BoneRec) : Except PyErr Bone :=
  if r.parent ≠ -1 ∧ r.parent < (bones.length : Int) then
    match pyIndex bones r.parent with
    | .error e => .error e
    | .ok pb => .ok ⟨r.name, mat4Mul r.transform pb.transform⟩
  else .ok ⟨r.name, r.transform⟩

/-- The bone loop of `Skeleton.deserialize`: each composed bone is
appended to `self.bones` before the next record is processed. -/
def loadBones : List BoneRec → List Bone → Except PyErr (List Bone)
  | [], acc => .ok acc
  | r :: rs, acc =>
    match composeBone acc r with
    | .error e => .error e
    | .ok b => loadBones rs (acc ++ [b])

/-- `Skeleton.deserialize`, from decoded bone records. -/
def skeletonDeserialize (recs : List BoneRec) : Except PyErr (List Bone) :=
  loadBones recs []

lemma loadBones_spec :
    ∀ rs acc bones, loadBones rs acc = .ok bones →
      bones.length = acc.length + rs.length ∧
      (∀ i, i < acc.length → bones.get? i = acc.get? i) ∧
      (∀ j r, rs.get? j = some r → ∃ mid b,
        loadBones (rs.take j) acc = .ok mid ∧ composeBone mid r = .ok b ∧
        bones.get? (acc.length + j) = some b) := by
  intro rs
  induction rs with
  | nil =>
    intro acc bones h
    simp only [loadBones] at h
    cases h
    exact ⟨by simp, fun i _ => rfl, fun j r hj => by simp at hj⟩
  | cons r rs ih =>
    intro acc bones h
    simp only [loadBones] at h
    cases hc : composeBone acc r with
    | error e => rw [hc] at h; cases h
    | ok b =>
      rw [hc] at h
      obtain ⟨hlen, hpre, hstep⟩ := ih (acc ++ [b]) bones h
      have hlb : (acc ++ [b]).length = acc.length + 1 := by simp
      refine ⟨by simp at hlen ⊢; omega, ?_, ?_⟩
      · intro i hi
        rw [hpre i (by simp; omega), List.get?_append (by omega)]
      · intro j r' hj
        cases j with
        | zero =>
          refine ⟨acc, b, rfl, ?_, ?_⟩
          · cases hj; exact hc
          · have := hpre acc.length (by simp)
            rw [Nat.add_zero, this, List.get?_concat_length]
        | succ j =>
          simp only [List.get?_cons_succ] at hj
          obtain ⟨mid, b', hmid, hcomp, hget⟩ := hstep j r' hj
          refine ⟨mid, b', ?_, hcomp, ?_⟩
          · show loadBones (r :: rs.take j) acc = .ok mid
            simp only [loadBones, hc]
            exact hmid
          · rw [show acc.length + (j + 1) = (acc ++ [b]).length + j by simp; omega]
            exact hget

lemma skeletonDeserialize_prefix (recs : List BoneRec) (bones : List Bone)
    (hok : skeletonDeserialize recs = .ok bones) (i : Nat)
    (hi : i < recs.length) :
    ∃ mid, loadBones (recs.take i) [] = .ok mid ∧ mid.length = i ∧
      ∀ p, p < i → bones.get? p = mid.get? p := by
  have hr : recs.get? i = some (recs.get ⟨i, hi⟩) := List.get?_eq_get hi
  obtain ⟨mid, b, hmid, -, -⟩ := (loadBones_spec recs [] bones hok).2.2 i _ hr
  have hmidspec := loadBones_spec (recs.take i) [] mid hmid
  have hmidlen : mid.length = i := by
    have hl := hmidspec.1
    simp only [List.length_nil, List.length_take, Nat.zero_add] at hl
    omega
  refine ⟨mid, hmid, hmidlen, ?_⟩
  intro p hp
  have hpr : p < recs.length := by omega
  have hrp : recs.get? p = some (recs.get ⟨p, hpr⟩) := List.get?_eq_get hpr
  have hrp' : (recs.take i).get? p = some (recs.get ⟨p, hpr⟩) := by
    rw [List.get?_take hp]; exact hrp
  obtain ⟨midF, bF, hmidF, hcompF, hgetF⟩ :=
    (loadBones_spec recs [] bones hok).2.2 p _ hrp
  obtain ⟨midP, bP, hmidP, hcompP, hgetP⟩ := hmidspec.2.2 p _ hrp'
  have htt : (recs.take i).take p = recs.take p := by
    rw [List.take_take, Nat.min_eq_left (by omega)]
  rw [htt, hmidF] at hmidP
  cases hmidP
  rw [hcompF] at hcompP
  cases hcompP
  simp only [List.length_nil, Nat.zero_add] at hgetF hgetP
  rw [hgetF, hgetP]

/-- C6: whenever `Skeleton.deserialize` succeeds, every bone whose
`parent_index` is -1 or at least the number of bones already loaded
keeps its local transform (the composition is silently skipped, no
error raised), and every bone whose `parent_index` refers to an earlier
entry stores its local transform right-multiplied by that parent's
already-composed cumulative transform. -/
theorem C6_skeleton_composition (recs : List BoneRec) (bones : List Bone)
    (hok : skeletonDeserialize recs = .ok bones) :
    bones.length = recs.length ∧
    ∀ i r, recs.get? i = some r →
      ((r.parent = -1 ∨ (i : Int) ≤ r.parent →
        ∃ b, bones.get? i = some b ∧ b.transform = r.transform) ∧
       (0 ≤ r.parent → r.parent < (i : Int) →
        ∃ b pb, bones.get? i = some b ∧ bones.get? r.parent.toNat = some pb ∧
          b.transform = mat4Mul r.transform pb.transform)) := by
  have hspec := loadBones_spec recs [] bones hok
  refine ⟨by have hl := hspec.1; simpa using hl, ?_⟩
  intro i r hr
  have hi : i < recs.length := by
    by_contra hge
    rw [List.get?_eq_none.mpr (by omega)] at hr
    cases hr
  obtain ⟨mid, hmid, hmidlen, hearlier⟩ :=
    skeletonDeserialize_prefix recs bones hok i hi
  obtain ⟨mid', b, hmid', hcomp, hget⟩ := hspec.2.2 i r hr
  rw [hmid] at hmid'
  cases hmid'
  simp only [List.length_nil, Nat.zero_add] at hget
  constructor
  · intro hp
    have hcond : ¬(r.parent ≠ -1 ∧ r.parent < (mid.length : Int)) := by
      rw [hmidlen]
      rcases hp with hp | hp
      · intro hcc; exact hcc.1 hp
      · intro hcc; omega
    rw [composeBone, if_neg hcond] at hcomp
    cases hcomp
    exact ⟨_, hget, rfl⟩
  · intro hp0 hplt
    have hne : r.parent ≠ -1 := by omega
    have hlt : r.parent < (mid.length : Int) := by rw [hmidlen]; exact hplt
    have hptn : r.parent.toNat < mid.length := by omega
    obtain ⟨pb, hpb⟩ : ∃ pb, mid.get? r.parent.toNat = some pb :=
      ⟨mid.get ⟨r.parent.toNat, hptn⟩, List.get?_eq_get hptn⟩
    have hpy : pyIndex mid r.parent = .ok pb := by
      simp only [pyIndex, if_pos hp0]
      rw [hpb]
    rw [composeBone, if_pos ⟨hne, hlt⟩, hpy] at hcomp
    cases hcomp
    refine ⟨_, pb, hget, ?_, rfl⟩
    rw [hearlier r.parent.toNat (by omega), hpb]

/-- C6: witness — the claim's 2-bone chain: a root (parent −1) whose
transform is a pure (5,0,0) translation and a child (parent 0) with
identity local transform; the child's cumulative transform is
`identity × root = root`. -/
theorem C6_skeleton_composition_witness :
    skeletonDeserialize [⟨[], -1, mat4Trans5⟩, ⟨[], 0, mat4Id⟩] =
      .ok [⟨[], mat4Trans5⟩, ⟨[], mat4Mul mat4Id mat4Trans5⟩] ∧
    mat4Mul mat4Id mat4Trans5 = mat4Trans5 ∧
    (∃ b pb,
      ([⟨[], mat4Trans5⟩, ⟨[], mat4Mul mat4Id mat4Trans5⟩] :
        List Bone).get? 1 = some b ∧
      ([⟨[], mat4Trans5⟩, ⟨[], mat4Mul mat4Id mat4Trans5⟩] :
        List Bone).get? ((0 : Int)).toNat = some pb ∧
      b.transform = mat4Mul mat4Id pb.transform) := by
  have hok : skeletonDeserialize [⟨[], -1, mat4Trans5⟩, ⟨[], 0, mat4Id⟩] =
      .ok [⟨[], mat4Trans5⟩, ⟨[], mat4Mul mat4Id mat4Trans5⟩] := rfl
  refine ⟨hok, ?_, ?_⟩
  · funext i j
    fin_cases i <;> fin_cases j <;>
      simp [mat4Mul, mat4Id, mat4Trans5] <;> decide
  · exact ((C6_skeleton_composition _ _ hok).2 1 ⟨[], 0, mat4Id⟩ rfl).2
      (by norm_num) (by norm_num)

/-- One file yielded by `os.walk`, paired with its already-joined full
path (`full_path = os.path.join(root, f)`); a walk is modelled as the
list of such entries in encounter order. -/
structure FileEntry where
  name : String
  path : String
  deriving DecidableEq

/-- Python `str.lower()` (ASCII case only, which covers the names the
claims exercise). -/
def pyLower (s : String) : String :=
  String.mk (s.toList.map Char.toLower)

/-- The per-walk indexing loop of `_build_file_index`:
`if f_lower not in self._file_index: self._file_index[f_lower] = full_path`
— an already-present key is never overwritten. -/
def indexFiles (idx : String → Option String) (files : List FileEntry) :
    String → Option String :=
  files.foldl
    (fun idx e =>
      if (idx (pyLower e.name)).isSome then idx
      else fun k => if k = pyLower e.name then some e.path else idx k)
    idx

/-- `_build_file_index`: the base car folder's walk is indexed first;
then, only when a game root is configured and `os.path.isdir` holds for
it, the game root's walk (`gameRootFiles = none` models the absent or
non-directory case). -/
def buildFileIndex (baseFiles : List FileEntry)
    (gameRootFiles : Option (List FileEntry)) : String → Option String :=
  let idx := indexFiles (fun _ => none) baseFiles
  match gameRootFiles with
  | none => idx
  | some gs => indexFiles idx gs

/-- The path of the first walk entry whose lowercased name is `k`. -/
def firstMatch (k : String) : List FileEntry → Option String
  | [] => none
  | e :: t => if pyLower e.name = k then some e.path else firstMatch k t

lemma indexFiles_lookup (files : List FileEntry) :
    ∀ idx k, indexFiles idx files k =
      if (idx k).isSome then idx k else firstMatch k files := by
  induction files with
  | nil =>
    intro idx k
    show idx k = _
    cases h : idx k
    · simp [h, firstMatch]
    · simp [h]
  | cons e t ih =>
    intro idx k
    have hstep : indexFiles idx (e :: t) =
        indexFiles (if (idx (pyLower e.name)).isSome then idx
          else fun k' => if k' = pyLower e.name then some e.path else idx k') t :=
      rfl
    rw [hstep]
    by_cases hp : (idx (pyLower e.name)).isSome
    · rw [if_pos hp, ih]
      by_cases hk : k = pyLower e.name
      · subst hk
        simp [hp]
      · have hne : ¬(pyLower e.name = k) := fun h => hk h.symm
        simp [firstMatch, hne]
    · rw [if_neg hp, ih]
      have hidxk : idx (pyLower e.name) = none :=
        Option.not_isSome_iff_eq_none.mp hp
      by_cases hk : k = pyLower e.name
      · subst hk
        simp [hidxk, firstMatch]
      · have hne : ¬(pyLower e.name = k) := fun h => hk h.symm
        simp [firstMatch, hk, hne]

lemma firstMatch_append (k : String) :
    ∀ l1 l2, firstMatch k (l1 ++ l2) =
      if (firstMatch k l1).isSome then firstMatch k l1 else firstMatch k l2 := by
  intro l1
  induction l1 with
  | nil => intro l2; simp [firstMatch]
  | cons e t ih =>
    intro l2
    by_cases he : pyLower e.name = k
    · simp [firstMatch, he]
    · simp [firstMatch, he, ih l2]

/-- C10: the one-time file index keys each file by its lowercased name
and the first occurrence encountered wins — looking up any key in the
built index returns exactly the path of the first matching entry of the
base-folder walk followed by the game-root walk (so a filename present
in both trees always resolves to the base-folder path, and within one
tree an earlier entry is never overwritten by a later duplicate). -/
theorem C10_file_index_first_occurrence :
    (∀ baseFiles gameFiles k,
      buildFileIndex baseFiles (some gameFiles) k =
        firstMatch k (baseFiles ++ gameFiles)) ∧
    (∀ baseFiles k,
      buildFileIndex baseFiles none k = firstMatch k baseFiles) ∧
    (∀ baseFiles gameFiles k p, firstMatch k baseFiles = some p →
      buildFileIndex baseFiles (some gameFiles) k = some p) := by
  have hbase : ∀ (baseFiles : List FileEntry) (k : String),
      indexFiles (fun _ => none) baseFiles k = firstMatch k baseFiles := by
    intro baseFiles k
    rw [indexFiles_lookup]
    simp
  refine ⟨?_, ?_, ?_⟩
  · intro baseFiles gameFiles k
    show indexFiles (indexFiles (fun _ => none) baseFiles) gameFiles k = _
    rw [indexFiles_lookup, hbase, firstMatch_append]
  · intro baseFiles k
    exact hbase baseFiles k
  · intro baseFiles gameFiles k p hp
    show indexFiles (indexFiles (fun _ => none) baseFiles) gameFiles k = some p
    rw [indexFiles_lookup, hbase, hp]
    rfl

/-- C10: witness — `A.dds` indexed from the base folder shadows
`a.dds` from the game root under the lowercased key `"a.dds"`. -/
theorem C10_file_index_first_occurrence_witness :
    firstMatch "a.dds" [⟨"A.dds", "base/tex/A.dds"⟩] = some "base/tex/A.dds" ∧
    buildFileIndex [⟨"A.dds", "base/tex/A.dds"⟩]
      (some [⟨"a.dds", "game/a.dds"⟩]) "a.dds" = some "base/tex/A.dds" := by
  have h1 : firstMatch "a.dds" [⟨"A.dds", "base/tex/A.dds"⟩] =
      some "base/tex/A.dds" := by
    simp [firstMatch, pyLower]
  exact ⟨h1, C10_file_index_first_occurrence.2.2
    [⟨"A.dds", "base/tex/A.dds"⟩] [⟨"a.dds", "game/a.dds"⟩] "a.dds"
    "base/tex/A.dds" h1⟩

/-- The filesystem as the resolver's fallback strategies see it:
`os.path.exists` and `os.path.isdir` abstracted as predicates (the
resolver only ever consults them). -/
structure FS where
  pathExists : String → Bool
  isdir : String → Bool

/-- `SmartPathResolver` state: the configured folders, the resolution
cache (a dict, modelled as an association list with the most recent
binding first), and the one-time filename index built by
`_build_file_index` (`buildFileIndex` above). -/
structure SmartPathResolver where
  base_folder : String
  game_root : Option String
  cache : List (String × String)
  fileIndex : String → Option String

/-- Dict read `self.cache[game_path]` (plus the `in` test). -/
def cacheLookup : List (String × String) → String → Option String
  | [], _ => none
  | (k, v) :: t, q => if k = q then some v else cacheLookup t q

/-- `os.sep` on the modelled (POSIX) platform. -/
def osSep : Char := '/'

/-- `game_path.replace('\\', os.sep).replace('/', os.sep)` — both
patterns are single characters, so each `replace` is a character map.
(Implemented over `List Char`: core `String.replace` is not
kernel-reducible.) -/
def normalizePath (s : String) : String :=
  String.mk ((s.toList.map fun c => if c = '\\' then osSep else c).map
    fun c => if c = '/' then osSep else c)

/-- `os.path.basename` (POSIX): everything after the last separator. -/
def basename (s : String) : String :=
  String.mk (s.toList.foldl (fun acc c => if c = osSep then [] else acc ++ [c]) [])

/-- `relative_path.lstrip(os.sep)`. -/
def lstripSep (s : String) : String :=
  String.mk (s.toList.dropWhile (· = osSep))

/-- Python string slicing `s[:n]` (by characters). -/
def pyTake (s : String) (n : Nat) : String :=
  String.mk (s.toList.take n)

/-- Python string slicing `s[n:]` (by characters). -/
def pyDrop (s : String) (n : Nat) : String :=
  String.mk (s.toList.drop n)

/-- Does the string start with the separator? -/
def startsWithSep (s : String) : Bool :=
  match s.toList with
  | c :: _ => c = osSep
  | [] => false

/-- Does the string end with the separator? -/
def endsWithSep (s : String) : Bool :=
  match s.toList.getLast? with
  | some c => c = osSep
  | none => false

/-- `os.path.join(a, b)` (POSIX, two arguments): an absolute `b`
discards `a`; otherwise a separator is inserted unless `a` is empty or
already ends with one. -/
def pyJoin (a b : String) : String :=
  if startsWithSep b then b
  else if a = "" then b
  else if endsWithSep a then a ++ b
  else a ++ "/" ++ b

/-- The character position just after the last separator (0 when the
string has none): `p.rfind(os.sep) + 1`. -/
def lastSepEnd : List Char → Nat
  | [] => 0
  | c :: t =>
    let r := lastSepEnd t
    if 0 < r then r + 1 else if c = osSep then 1 else 0

/-- `head.rstrip(os.sep)` over characters. -/
def rstripSep (cs : List Char) : List Char :=
  (cs.reverse.dropWhile (· = osSep)).reverse

/-- `os.path.dirname` (POSIX): the prefix up to the last separator,
kept verbatim if it is all separators, otherwise right-stripped. -/
def dirname (p : String) : String :=
  let cs := p.toList
  let head := cs.take (lastSepEnd cs)
  if head.isEmpty then ""
  else if head.all (· = osSep) then String.mk head
  else String.mk (rstripSep head)

/-- `_search_upwards`: up to 5 times, test
`os.path.join(current, relative_path.lstrip(os.sep))`, then step to
`os.path.dirname(current)`, stopping when the parent equals the current
folder. -/
def searchUpwards (fs : FS) : Nat → String → String → Option String
  | 0, _, _ => none
  | fuel + 1, current, rel =>
    let test := pyJoin current (lstripSep rel)
    if fs.pathExists test then some test
    else
      let parent := dirname current
      if parent = current then none
      else searchUpwards fs fuel parent rel

/-- Python truthiness of `result` (`None` and `''` are falsy). -/
def truthyOpt : Option String → Bool
  | none => false
  | some s => decide (s ≠ "")

/-- The body of `SmartPathResolver.resolve` between the cache check and
the final `if result:` — filename-index lookup first, then the
relative-path fallbacks (direct candidate under the base folder, the
upward search, the game-root candidate). -/
def resolveLookup (fs : FS) (r : SmartPathResolver) (game_path : String) :
    Option String :=
  let normalized := normalizePath game_path
  let filename := basename normalized
  let result0 := r.fileIndex (pyLower filename)
  if truthyOpt result0 then result0
  else
    let relative_path :=
      if pyLower (pyTake game_path 5) = "game:" then
        normalizePath (pyDrop game_path 5)
      else normalized
    let candidate := pyJoin r.base_folder (lstripSep relative_path)
    if fs.pathExists candidate then some candidate
    else
      match searchUpwards fs 5 r.base_folder relative_path with
      | some p => some p
      | none =>
        match r.game_root with
        | some g =>
          if fs.isdir g then
            let game_candidate := pyJoin g (lstripSep relative_path)
            if fs.pathExists game_candidate then some game_candidate
            else none
          else none
        | none => none

/-- `SmartPathResolver.resolve`, returning the result, the updated
resolver state, and whether the call was served from the cache (the
early-return branch `if game_path in self.cache`).  An empty
`game_path` is falsy and short-circuits to `None`; only a truthy
result is written to the cache before being returned. -/
def resolve (fs : FS) (r : SmartPathResolver) (game_path : String) :
    Option String × SmartPathResolver × Bool :=
  if game_path = "" then (none, r, false)
  else
    match cacheLookup r.cache game_path with
    | some v => (some v, r, true)
    | none =>
      match resolveLookup fs r game_path with
      | some p =>
        if p = "" then (none, r, false)
        else (some p, { r with cache := (game_path, p) :: r.cache }, false)
      | none => (none, r, false)

lemma searchUpwards_none (fs : FS) (hfs : ∀ s, fs.pathExists s = false) :
    ∀ fuel current rel, searchUpwards fs fuel current rel = none := by
  intro fuel
  induction fuel with
  | zero => intro current rel; rfl
  | succ fuel ih =>
    intro current rel
    simp only [searchUpwards, hfs]
    by_cases h : dirname current = current
    · simp [h]
    · simp [h, ih]

/-- C4: counterexample.  With an empty index, no game root and a
filesystem on which nothing exists, resolving
`Game:\Media\Cars\body_diff.dds` returns absent and caches nothing, so
the repeated identical query is **not** served from the resolver's
cache (the cache-hit flag of the second call is false): only successful
resolutions are cached. -/
theorem C4_counterexample :
    (resolve ⟨fun _ => false, fun _ => false⟩
      ⟨"/base", none, [], fun _ => none⟩ "Game:\\Media\\Cars\\body_diff.dds").1 =
      none ∧
    (resolve ⟨fun _ => false, fun _ => false⟩
      (resolve ⟨fun _ => false, fun _ => false⟩
        ⟨"/base", none, [], fun _ => none⟩
        "Game:\\Media\\Cars\\body_diff.dds").2.1
      "Game:\\Media\\Cars\\body_diff.dds").2.2 = false :=
  ⟨rfl, rfl⟩

/-- C4 (amended): if the query is non-empty, not yet cached, and some
indexed filename matches the query's lowercased basename (with a
non-empty indexed path), `resolve` returns that path regardless of the
query's stated directory and caches it; if no indexed filename matches,
nothing exists on the filesystem and there is no game root, `resolve`
returns absent; a cached query is served from the cache; but a query
that resolves to absent leaves the resolver unchanged — it is **not**
cached, and repeating it re-runs the full resolution instead of being
served from the cache. -/
theorem C4_resolve_behavior (fs : FS) (r : SmartPathResolver) (q p : String) :
    (q ≠ "" → cacheLookup r.cache q = none →
      r.fileIndex (pyLower (basename (normalizePath q))) = some p → p ≠ "" →
      resolve fs r q = (some p, { r with cache := (q, p) :: r.cache }, false)) ∧
    (q ≠ "" → cacheLookup r.cache q = none →
      r.fileIndex (pyLower (basename (normalizePath q))) = none →
      (∀ s, fs.pathExists s = false) → r.game_root = none →
      resolve fs r q = (none, r, false)) ∧
    (q ≠ "" → cacheLookup r.cache q = some p →
      resolve fs r q = (some p, r, true)) ∧
    ((resolve fs r q).1 = none →
      (resolve fs r q).2.1 = r ∧ (resolve fs r q).2.2 = false ∧
      (resolve fs (resolve fs r q).2.1 q).2.2 = false) := by
  refine ⟨?_, ?_, ?_, ?_⟩
  · intro hq hc hidx hp
    have hlook : resolveLookup fs r q = some p := by
      simp only [resolveLookup, hidx]
      simp [truthyOpt, hp]
    simp only [resolve, if_neg hq, hc, hlook]
    simp [hp]
  · intro hq hc hidx hfs hroot
    have hlook : resolveLookup fs r q = none := by
      simp only [resolveLookup, hidx, hroot]
      simp [truthyOpt, hfs, searchUpwards_none fs hfs]
    simp only [resolve, if_neg hq, hc, hlook]
  · intro hq hc
    simp only [resolve, if_neg hq, hc]
  · intro h1
    by_cases hq : q = ""
    · subst hq
      refine ⟨rfl, rfl, rfl⟩
    · cases hc : cacheLookup r.cache q with
      | some v =>
        rw [show resolve fs r q = (some v, r, true) by
          simp only [resolve, if_neg hq, hc]] at h1
        cases h1
      | none =>
        cases hl : resolveLookup fs r q with
        | some v =>
          by_cases hv : v = ""
          · subst hv
            have hres : resolve fs r q = (none, r, false) := by
              simp only [resolve, if_neg hq, hc, hl]
              simp
            refine ⟨by rw [hres], by rw [hres], ?_⟩
            rw [hres]
            show (resolve fs r q).2.2 = false
            rw [hres]
          · rw [show resolve fs r q =
                (some v, { r with cache := (q, v) :: r.cache }, false) by
              simp only [resolve, if_neg hq, hc, hl]
              simp [hv]] at h1
            cases h1
        | none =>
          have hres : resolve fs r q = (none, r, false) := by
            simp only [resolve, if_neg hq, hc, hl]
          refine ⟨by rw [hres], by rw [hres], ?_⟩
          rw [hres]
          show (resolve fs r q).2.2 = false
          rw [hres]

/-- C4: witness — a file index containing `body_diff.dds` resolves the
query `Game:\Media\Cars\body_diff.dds` by basename, ignoring the
stated directory, and caches the result. -/
theorem C4_resolve_behavior_witness :
    ("Game:\\Media\\Cars\\body_diff.dds" ≠ "") ∧
    resolve ⟨fun _ => false, fun _ => false⟩
      ⟨"/base", none, [],
        fun k => if k = "body_diff.dds" then some "/base/textures/body_diff.dds"
          else none⟩
      "Game:\\Media\\Cars\\body_diff.dds" =
      (some "/base/textures/body_diff.dds",
        ⟨"/base", none,
          [("Game:\\Media\\Cars\\body_diff.dds", "/base/textures/body_diff.dds")],
          fun k => if k = "body_diff.dds" then some "/base/textures/body_diff.dds"
            else none⟩,
        false) :=
  ⟨by decide,
    (C4_resolve_behavior ⟨fun _ => false, fun _ => false⟩
      ⟨"/base", none, [],
        fun k => if k = "body_diff.dds" then some "/base/textures/body_diff.dds"
          else none⟩
      "Game:\\Media\\Cars\\body_diff.dds" "/base/textures/body_diff.dds").1
      (by decide) rfl rfl (by decide)⟩

/-- `Version.is_at_least` as it behaves on a `Version` whose fields may
be `None` (short reads): Python's `or`/`and` short-circuit, so `None`
only raises `TypeError` when the comparison that touches it is actually
evaluated. -/
def isAtLeastPy (major minor : Option Nat) (M m : Nat) : Except PyErr Bool :=
  match major with
  | none => .error .typeError
  | some a =>
    if a > M then .ok true
    else if a = M then
      match minor with
      | none => .error .typeError
      | some b => .ok (decide (b ≥ m))
    else .ok false

/-- A decoded shader-parameter value; floats are kept as their 32-bit
patterns, each possibly `None` when its read hit the end of the buffer
(Python stores the `None` inside the tuple). -/
inductive ParamValue where
  | none
  | color (r g b a : Option Nat)
  | float (v : Option Nat)
  | bool (b : Bool)
  | vector2 (x y : Option Nat)
  deriving DecidableEq

/-- `ShaderParameter` after `deserialize`: hash, type code, decoded
value, texture path (type 6), optional GUID (own Version ≥ 3.0). -/
structure ShaderParameter where
  hash : Option Nat
  type : Option Nat
  value : ParamValue
  path : Option (List Nat)
  guid : Option (List Nat)
  deriving DecidableEq

/-- `ShaderParameter.deserialize`: reads the parameter's own Version
(two u8), the u32 hash, a flag-gated 4-byte skip when Version ≥ 3.1
(Python's `None != 0` is true, so a missing flag byte still skips), the
u8 type code, a 16-byte GUID when Version ≥ 3.0, then the
type-dispatched payload exactly as the source's `elif` chain (an
unknown or `None` type code reads no payload). -/
def ShaderParameter.deserialize (s0 : BinaryStream) :
    Except PyErr (ShaderParameter × BinaryStream) := do
  let (vmaj, s1) ← BinaryStream.read_u8 s0
  let (vmin, s2) ← BinaryStream.read_u8 s1
  let (hash, s3) ← BinaryStream.read_u32 s2
  let b31 ← isAtLeastPy vmaj vmin 3 1
  let s4 ←
    if b31 then do
      let (flag, s') ← BinaryStream.read_u8 s3
      if flag ≠ some 0 then pure (s'.seekCur 4) else pure s'
    else pure s3
  let (ty, s5) ← BinaryStream.read_u8 s4
  let (guid, s6) ←
    if (← isAtLeastPy vmaj vmin 3 0) then do
      let (g, s') := s5.readBytes 16
      pure (some g, s')
    else pure (none, s5)
  if ty = some 0 ∨ ty = some 5 ∨ ty = some 9 then
    pure (⟨hash, ty, .none, none, guid⟩, s6.seekCur 16)
  else if ty = some 1 then do
    let (f1, s7) ← BinaryStream.read_f32 s6
    let (f2, s8) ← BinaryStream.read_f32 s7
    let (f3, s9) ← BinaryStream.read_f32 s8
    let (f4, s10) ← BinaryStream.read_f32 s9
    pure (⟨hash, ty, .color f1 f2 f3 f4, none, guid⟩, s10)
  else if ty = some 2 then do
    let (v, s7) ← BinaryStream.read_f32 s6
    pure (⟨hash, ty, .float v, none, guid⟩, s7)
  else if ty = some 4 then
    pure (⟨hash, ty, .none, none, guid⟩, s6.seekCur 4)
  else if ty = some 3 then do
    let (v, s7) ← BinaryStream.read_u32 s6
    pure (⟨hash, ty, .bool (decide (v ≠ some 0)), none, guid⟩, s7)
  else if ty = some 6 then do
    let (pth, s7) ← BinaryStream.read_7bit_string s6
    pure (⟨hash, ty, .none, some pth, guid⟩, s7.seekCur 4)
  else if ty = some 7 then do
    let s7 := s6.seekCur 8
    let b11 ← isAtLeastPy vmaj vmin 1 1
    pure (⟨hash, ty, .none, none, guid⟩, if b11 then s7.seekCur 4 else s7)
  else if ty = some 8 then do
    let (len, s7) ← BinaryStream.read_u32 s6
    match len with
    | some n => pure (⟨hash, ty, .none, none, guid⟩, s7.seekCur (4 * n))
    | none => .error .typeError
  else if ty = some 11 then do
    let (x, s7) ← BinaryStream.read_f32 s6
    let (y, s8) ← BinaryStream.read_f32 s7
    let b20 ← isAtLeastPy vmaj vmin 2 0
    pure (⟨hash, ty, .vector2 x y, none, guid⟩, if b20 then s8 else s8.seekCur 8)
  else
    pure (⟨hash, ty, .none, none, guid⟩, s6)

/-- What `_load_parameters` consumes of a material sub-blob: the blob's
Version (from the container header, assumed fully read) and its payload
stream. -/
structure ParamBlob where
  version : Version
  stream : BinaryStream

/-- The parameter mapping `self.parameters`: a dict keyed by the (maybe
`None`) hash. -/
def ParamMap : Type := Option Nat → Option ShaderParameter

/-- The insertion loop of `_load_parameters`:
`param.deserialize(blob.stream); self.parameters[param.hash] = param`,
aborted by the surrounding `except` on the first raised error, keeping
the parameters already inserted. -/
def loadParamsLoop : Nat → BinaryStream → ParamMap → ParamMap
  | 0, _, m => m
  | n + 1, s, m =>
    match ShaderParameter.deserialize s with
    | .error _ => m
    | .ok (p, s') =>
      loadParamsLoop n s' (fun h => if h = p.hash then some p else m h)

/-- `MaterialInstance._load_parameters`: the count is read as a u16
when the blob's Version is at least 2.1, as a u8 otherwise; a `None`
count makes `range(None)` raise, caught by the `except`, leaving the
mapping unchanged. -/
def loadParameters (b : ParamBlob) (m : ParamMap) : ParamMap :=
  if b.version.isAtLeast 2 1 then
    match BinaryStream.read_u16 b.stream with
    | .error _ => m
    | .ok (none, _) => m
    | .ok (some n, s) => loadParamsLoop n s m
  else
    match BinaryStream.read_u8 b.stream with
    | .error _ => m
    | .ok (none, _) => m
    | .ok (some n, s) => loadParamsLoop n s m

/-- All-or-nothing sequential deserialization of `n` parameters (the
loop's successful executions, as a list in stream order). -/
def seqParams : Nat → BinaryStream → Option (List ShaderParameter × BinaryStream)
  | 0, s => some ([], s)
  | n + 1, s =>
    match ShaderParameter.deserialize s with
    | .error _ => none
    | .ok (p, s') =>
      match seqParams n s' with
      | none => none
      | some (ps, s'') => some (p :: ps, s'')

/-- Inserting a list of parameters into the mapping in order
(last write wins on hash collision, as dict assignment does). -/
def insertParams (m : ParamMap) (ps : List ShaderParameter) : ParamMap :=
  ps.foldl (fun m p => fun h => if h = p.hash then some p else m h) m

/-- The last parameter of `ps` whose hash is `h`, if any. -/
def lastParamWith (h : Option Nat) : List ShaderParameter → Option ShaderParameter
  | [] => none
  | p :: t =>
    match lastParamWith h t with
    | some q => some q
    | none => if h = p.hash then some p else none

/-- The parameter list a sub-blob yields when every read succeeds. -/
def blobParams (b : ParamBlob) : Option (List ShaderParameter) :=
  if b.version.isAtLeast 2 1 then
    match BinaryStream.read_u16 b.stream with
    | .ok (some n, s) =>
      match seqParams n s with
      | some (ps, _) => some ps
      | none => none
    | _ => none
  else
    match BinaryStream.read_u8 b.stream with
    | .ok (some n, s) =>
      match seqParams n s with
      | some (ps, _) => some ps
      | none => none
    | _ => none

lemma seqParams_length :
    ∀ n s ps s', seqParams n s = some (ps, s') → ps.length = n := by
  intro n
  induction n with
  | zero =>
    intro s ps s' h
    simp only [seqParams] at h
    cases h
    rfl
  | succ n ih =>
    intro s ps s' h
    simp only [seqParams] at h
    cases hd : ShaderParameter.deserialize s with
    | error e =>
      simp only [hd] at h
      exact Option.noConfusion h
    | ok v =>
      obtain ⟨p, s1⟩ := v
      simp only [hd] at h
      cases hs : seqParams n s1 with
      | none =>
        simp only [hs] at h
        exact Option.noConfusion h
      | some w =>
        obtain ⟨ps', s2⟩ := w
        simp only [hs] at h
        cases h
        have hlen := ih s1 ps' _ hs
        simp [hlen]

lemma loadParamsLoop_eq :
    ∀ n s m ps s', seqParams n s = some (ps, s') →
      loadParamsLoop n s m = insertParams m ps := by
  intro n
  induction n with
  | zero =>
    intro s m ps s' h
    simp only [seqParams] at h
    cases h
    rfl
  | succ n ih =>
    intro s m ps s' h
    simp only [seqParams] at h
    cases hd : ShaderParameter.deserialize s with
    | error e =>
      simp only [hd] at h
      exact Option.noConfusion h
    | ok v =>
      obtain ⟨p, s1⟩ := v
      simp only [hd] at h
      cases hs : seqParams n s1 with
      | none =>
        simp only [hs] at h
        exact Option.noConfusion h
      | some w =>
        obtain ⟨ps', s2⟩ := w
        simp only [hs] at h
        cases h
        simp only [loadParamsLoop, hd]
        have hstep : insertParams m (p :: ps') =
            insertParams (fun h => if h = p.hash then some p else m h) ps' := rfl
        rw [hstep]
        exact ih s1 _ ps' _ hs

lemma insertParams_lookup :
    ∀ ps (m : ParamMap) h, insertParams m ps h =
      match lastParamWith h ps with
      | some p => some p
      | none => m h := by
  intro ps
  induction ps with
  | nil => intro m h; rfl
  | cons p t ih =>
    intro m h
    have hstep : insertParams m (p :: t) =
        insertParams (fun h' => if h' = p.hash then some p else m h') t := rfl
    rw [hstep, ih]
    cases hl : lastParamWith h t with
    | some q => simp [lastParamWith, hl]
    | none =>
      simp only [lastParamWith, hl]
      by_cases hh : h = p.hash
      · simp [hh]
      · simp [hh]

lemma loadParameters_eq (b : ParamBlob) (ps : List ShaderParameter)
    (h : blobParams b = some ps) :
    ∀ m, loadParameters b m = insertParams m ps := by
  intro m
  by_cases h21 : b.version.isAtLeast 2 1
  · simp only [blobParams, if_pos h21] at h
    simp only [loadParameters, if_pos h21]
    cases hr : BinaryStream.read_u16 b.stream with
    | error e =>
      simp only [hr] at h
      exact Option.noConfusion h
    | ok v =>
      obtain ⟨n?, s⟩ := v
      cases n? with
      | none =>
        simp only [hr] at h
        exact Option.noConfusion h
      | some n =>
        simp only [hr] at h ⊢
        cases hs : seqParams n s with
        | none =>
          simp only [hs] at h
          exact Option.noConfusion h
        | some w =>
          obtain ⟨ps', s'⟩ := w
          simp only [hs] at h
          cases h
          exact loadParamsLoop_eq n s m _ _ hs
  · simp only [blobParams, if_neg h21] at h
    simp only [loadParameters, if_neg h21]
    cases hr : BinaryStream.read_u8 b.stream with
    | error e =>
      simp only [hr] at h
      exact Option.noConfusion h
    | ok v =>
      obtain ⟨n?, s⟩ := v
      cases n? with
      | none =>
        simp only [hr] at h
        exact Option.noConfusion h
      | some n =>
        simp only [hr] at h ⊢
        cases hs : seqParams n s with
        | none =>
          simp only [hs] at h
          exact Option.noConfusion h
        | some w =>
          obtain ⟨ps', s'⟩ := w
          simp only [hs] at h
          cases h
          exact loadParamsLoop_eq n s m _ _ hs

/-- C9: the parameter count of a shader-parameter block is read as a
u16 exactly when the blob's Version is at least 2.1 and as a u8
otherwise, and when all reads succeed, exactly that many
ShaderParameters are deserialized sequentially from the same stream and
inserted into the hash-keyed mapping in order. -/
theorem C9_parameter_count (b : ParamBlob) (m : ParamMap) (n : Nat)
    (s' s'' : BinaryStream) (ps : List ShaderParameter) :
    (b.version.isAtLeast 2 1 = true →
      BinaryStream.read_u16 b.stream = .ok (some n, s') →
      seqParams n s' = some (ps, s'') →
      loadParameters b m = insertParams m ps ∧ ps.length = n) ∧
    (b.version.isAtLeast 2 1 = false →
      BinaryStream.read_u8 b.stream = .ok (some n, s') →
      seqParams n s' = some (ps, s'') →
      loadParameters b m = insertParams m ps ∧ ps.length = n) := by
  constructor
  · intro h21 hr hs
    refine ⟨?_, seqParams_length n s' ps s'' hs⟩
    simp only [loadParameters, if_pos h21, hr]
    exact loadParamsLoop_eq n s' m ps s'' hs
  · intro h21 hr hs
    refine ⟨?_, seqParams_length n s' ps s'' hs⟩
    have hno : ¬(b.version.isAtLeast 2 1 = true) := by rw [h21]; decide
    simp only [loadParameters, if_neg hno, hr]
    exact loadParamsLoop_eq n s' m ps s'' hs

/-- C9: witness — a Version-2.1 blob whose stream holds the u16 count 1
followed by one Float parameter (own version 1.0, hash 9, type 2,
payload bits 0). -/
theorem C9_parameter_count_witness :
    (Version.mk 2 1).isAtLeast 2 1 = true ∧
    loadParameters
        ⟨⟨2, 1⟩, ⟨[1, 0, 1, 0, 9, 0, 0, 0, 2, 0, 0, 0, 0], 0⟩⟩
        (fun _ => none) =
      insertParams (fun _ => none)
        [⟨some 9, some 2, .float (some 0), none, none⟩] ∧
    ([(⟨some 9, some 2, .float (some 0), none, none⟩ : ShaderParameter)]).length =
      1 := by
  have h := (C9_parameter_count
    ⟨⟨2, 1⟩, ⟨[1, 0, 1, 0, 9, 0, 0, 0, 2, 0, 0, 0, 0], 0⟩⟩
    (fun _ => none) 1
    ⟨[1, 0, 1, 0, 9, 0, 0, 0, 2, 0, 0, 0, 0], 2⟩
    ⟨[1, 0, 1, 0, 9, 0, 0, 0, 2, 0, 0, 0, 0], 13⟩
    [⟨some 9, some 2, .float (some 0), none, none⟩]).1 rfl rfl rfl
  exact ⟨rfl, h.1, h.2⟩

/-- One material file at the parsed level: the parent path its
MatI/MatL sub-blob yields (when present) and its MtPr/DfPr parameter
sub-blob (when present).  The `world` function used below abstracts the
composite `resolver.resolve` + file read + `Bundle.deserialize` +
sub-blob lookup of `_load_parent_material`; it returns `none` for every
failure branch that the source's early returns and `except` absorb. -/
structure MatFile where
  parent : Option String
  paramBlob : Option ParamBlob

/-- `_load_parent_material`, depth-first: resolve and parse the parent
file, recurse into its own parent first, then merge that file's
parameter block.  The fuel bounds the unguarded recursion (Python's
`RecursionError` would be caught by the surrounding `except`, keeping
the chain resolved so far — fuel 0 models that boundary). -/
def loadParentMaterial (world : String → Option MatFile) :
    Nat → String → ParamMap → ParamMap
  | 0, _, m => m
  | fuel + 1, path, m =>
    match world path with
    | none => m
    | some f =>
      let m1 := match f.parent with
        | some pp => loadParentMaterial world fuel pp m
        | none => m
      match f.paramBlob with
      | some b => loadParameters b m1
      | none => m1

/-- The parameter part of `MaterialInstance.deserialize`: resolve the
parent chain into the (initially empty) mapping bottom-up, then merge
this material's own parameter block last. -/
def materialParameters (world : String → Option MatFile) (fuel : Nat)
    (f : MatFile) : ParamMap :=
  let m1 := match f.parent with
    | some pp => loadParentMaterial world fuel pp (fun _ => none)
    | none => (fun _ => none)
  match f.paramBlob with
  | some b => loadParameters b m1
  | none => m1

/-- C5: for every material whose own parameter block defines hash `H`,
the fully resolved parameter mapping exposes at `H` the last value the
own block writes for `H` — whatever any ancestor in the parent chain
(resolved first, bottom-up) wrote there is overwritten, for every
world, chain and recursion budget. -/
theorem C5_parameter_override (world : String → Option MatFile) (fuel : Nat)
    (f : MatFile) (b : ParamBlob) (ps : List ShaderParameter)
    (H : Option Nat) (p : ShaderParameter)
    (hb : f.paramBlob = some b) (hps : blobParams b = some ps)
    (hlast : lastParamWith H ps = some p) :
    materialParameters world fuel f H = some p := by
  simp only [materialParameters, hb]
  rw [loadParameters_eq b ps hps, insertParams_lookup, hlast]

/-- C5: witness — a parent material writing hash 9 := Float(bits 1)
and a derived material writing hash 9 := Float(bits 2); the resolved
mapping exposes the derived value, while the parent chain alone would
expose the parent's. -/
theorem C5_parameter_override_witness :
    materialParameters
        (fun path => if path = "parent.materialbin" then
          some ⟨none, some ⟨⟨1, 0⟩, ⟨[1, 1, 0, 9, 0, 0, 0, 2, 1, 0, 0, 0], 0⟩⟩⟩
        else none)
        5
        ⟨some "parent.materialbin",
          some ⟨⟨1, 0⟩, ⟨[1, 1, 0, 9, 0, 0, 0, 2, 2, 0, 0, 0], 0⟩⟩⟩
        (some 9) =
      some ⟨some 9, some 2, .float (some 2), none, none⟩ ∧
    loadParentMaterial
        (fun path => if path = "parent.materialbin" then
          some ⟨none, some ⟨⟨1, 0⟩, ⟨[1, 1, 0, 9, 0, 0, 0, 2, 1, 0, 0, 0], 0⟩⟩⟩
        else none)
        5 "parent.materialbin" (fun _ => none) (some 9) =
      some ⟨some 9, some 2, .float (some 1), none, none⟩ :=
  ⟨C5_parameter_override
      (fun path => if path = "parent.materialbin" then
        some ⟨none, some ⟨⟨1, 0⟩, ⟨[1, 1, 0, 9, 0, 0, 0, 2, 1, 0, 0, 0], 0⟩⟩⟩
      else none)
      5
      ⟨some "parent.materialbin",
        some ⟨⟨1, 0⟩, ⟨[1, 1, 0, 9, 0, 0, 0, 2, 2, 0, 0, 0], 0⟩⟩⟩
      ⟨⟨1, 0⟩, ⟨[1, 1, 0, 9, 0, 0, 0, 2, 2, 0, 0, 0], 0⟩⟩
      [⟨some 9, some 2, .float (some 2), none, none⟩]
      (some 9) ⟨some 9, some 2, .float (some 2), none, none⟩
      rfl rfl rfl,
    rfl⟩

end Forza
